import Mathlib

/-!
Shallow embedding of the storefront state logic in `src/frontend/src/App.js`:
the cart store (`CartProvider`, lines 66-145), the auth session manager
(`AuthProvider`, lines 11-53) and the view router (`renderView` /
`window.navigateTo`, lines 792-824).

Modelling conventions:
- JavaScript numbers are modelled as rationals (`ℚ`); the spec's data model
  describes prices as decimals and quantities as integers, and the cart code
  performs only addition, multiplication and comparison on them.
- The browser's `localStorage` is a key-value store holding strings under the
  keys `session_token` and `cart`.  A stored string is either the `JSON`
  serialization of some JSON value, or text that is not valid JSON at all
  (`JSON.parse` throws on it); the inductive `Stored` makes that distinction
  explicit while treating the external `JSON.stringify`/`JSON.parse` pair as a
  faithful bijection between JSON values and their texts.
- Asynchronous network calls are modelled by passing their outcome as an
  explicit argument (`FetchOutcome`).
-/

namespace Shop

/-- JSON values: the result of the browser's `JSON.parse` and the argument of
`JSON.stringify`. -/
inductive Jval : Type where
  | jnull : Jval
  | jbool : Bool → Jval
  | jnum : ℚ → Jval
  | jstr : String → Jval
  | jarr : List Jval → Jval
  | jobj : List (String × Jval) → Jval

/-- A string held in the persistent key-value store: either text that is not
valid JSON (on which `JSON.parse` throws a `SyntaxError`), or the JSON text of
a value `v` (on which `JSON.parse` returns `v`). -/
inductive Stored : Type where
  | junk : String → Stored
  | json : Jval → Stored

/-- The two persisted keys used by `App.js`: `session_token` and `cart`
(spec section 6).  `none` models an absent key (`localStorage.getItem`
returns `null`). -/
structure KVStore where
  session_token : Option String
  cart : Option Stored

/-- A product as supplied by the backend (spec section 3); the cart stores a
full snapshot of this object inside each line item. -/
structure Product where
  id : String
  name : String
  description : String
  price : ℚ
  category : String
  inventory : ℚ
  images : List String
  deriving DecidableEq

/-- A cart line item: `{ product, quantity }` as built by `addToCart`
(App.js line 90). -/
structure LineItem where
  product : Product
  quantity : ℚ
  deriving DecidableEq

/-- The profile of an authenticated user (spec section 3). -/
structure User where
  id : String
  name : String
  email : String
  picture : Option String
  created_at : String
  deriving DecidableEq

/-- The combined client state: `AuthProvider`'s `user`/`loading`,
`CartProvider`'s `cart`/`cartCount`, `App`'s `currentView`, and the persistent
store. -/
structure GState where
  user : Option User
  loading : Bool
  cart : List LineItem
  cartCount : ℚ
  currentView : String
  store : KVStore

/-- JSON encoding of a product, field for field, as `JSON.stringify` produces
it for the product objects the backend returns. -/
def encodeProduct (p : Product) : Jval :=
  .jobj [("id", .jstr p.id), ("name", .jstr p.name),
         ("description", .jstr p.description), ("price", .jnum p.price),
         ("category", .jstr p.category), ("inventory", .jnum p.inventory),
         ("images", .jarr (p.images.map .jstr))]

/-- Reads back a JSON array of strings (the `images` field). -/
def decodeStrList : List Jval → Option (List String)
  | [] => some []
  | .jstr s :: rest => (decodeStrList rest).map fun l => s :: l
  | _ => none

/-- Reads a parsed JSON value back into a `Product`; `none` when the value
does not have the shape `JSON.stringify` gives a product. -/
def decodeProduct : Jval → Option Product
  | .jobj [("id", .jstr i), ("name", .jstr n),
           ("description", .jstr d), ("price", .jnum pr),
           ("category", .jstr c), ("inventory", .jnum inv),
           ("images", .jarr imgs)] =>
      (decodeStrList imgs).map fun l =>
        { id := i, name := n, description := d, price := pr,
          category := c, inventory := inv, images := l }
  | _ => none

/-- JSON encoding of one line item `{ product, quantity }`. -/
def encodeItem (it : LineItem) : Jval :=
  .jobj [("product", encodeProduct it.product), ("quantity", .jnum it.quantity)]

/-- Reads a parsed JSON value back into a `LineItem`. -/
def decodeItem : Jval → Option LineItem
  | .jobj [("product", pv), ("quantity", .jnum q)] =>
      (decodeProduct pv).map fun p => { product := p, quantity := q }
  | _ => none

/-- Reads back a list of line items, failing if any element fails. -/
def decodeItems : List Jval → Option (List LineItem)
  | [] => some []
  | v :: rest =>
      match decodeItem v, decodeItems rest with
      | some it, some r => some (it :: r)
      | _, _ => none

/-- JSON encoding of the whole cart, as persisted by
`localStorage.setItem('cart', JSON.stringify(newCart))`. -/
def encodeCart (c : List LineItem) : Jval :=
  .jarr (c.map encodeItem)

/-- Reads a parsed JSON value back into a cart; `none` when the value does
not have the shape of a serialized cart. -/
def decodeCart : Jval → Option (List LineItem)
  | .jarr items => decodeItems items
  | _ => none

/-- The exposed item count: `newCart.reduce((sum, item) => sum + item.quantity, 0)`
(App.js lines 75, 94, 101, 118). -/
def sumQuantities (c : List LineItem) : ℚ :=
  c.foldl (fun sum it => sum + it.quantity) 0

/-- The `newCart` computed by `addToCart` (App.js lines 80-91):
`cart.find(item => item.product.id === product.id)` is truthy exactly when
some line item matches; the existing branch maps an increment over matching
items, the other branch appends `{ product, quantity }`. -/
def addItem (c : List LineItem) (product : Product) (quantity : ℚ) :
    List LineItem :=
  if c.any fun it => it.product.id == product.id then
    c.map fun it =>
      if it.product.id == product.id then
        { it with quantity := it.quantity + quantity }
      else it
  else
    c ++ [{ product := product, quantity := quantity }]

/-- The `newCart` computed by `removeFromCart` (App.js line 99). -/
def removeItem (c : List LineItem) (productId : String) : List LineItem :=
  c.filter fun it => it.product.id != productId

/-- The `newCart` computed by the positive branch of `updateQuantity`
(App.js lines 111-115). -/
def setItemQuantity (c : List LineItem) (productId : String) (quantity : ℚ) :
    List LineItem :=
  c.map fun it =>
    if it.product.id == productId then { it with quantity := quantity } else it

/-- App.js lines 79-96: compute `newCart`, store it, recompute `cartCount`,
persist the serialized new cart. -/
def addToCart (s : GState) (product : Product) (quantity : ℚ) : GState :=
  let newCart := addItem s.cart product quantity
  { s with cart := newCart, cartCount := sumQuantities newCart,
           store := { s.store with cart := some (.json (encodeCart newCart)) } }

/-- App.js lines 98-103: filter out the matching line item, recompute the
count, persist. -/
def removeFromCart (s : GState) (productId : String) : GState :=
  let newCart := removeItem s.cart productId
  { s with cart := newCart, cartCount := sumQuantities newCart,
           store := { s.store with cart := some (.json (encodeCart newCart)) } }

/-- App.js lines 105-120: quantities `<= 0` delegate to `removeFromCart`;
otherwise the matching line item's quantity is overwritten. -/
def updateQuantity (s : GState) (productId : String) (quantity : ℚ) : GState :=
  if quantity ≤ 0 then removeFromCart s productId
  else
    let newCart := setItemQuantity s.cart productId quantity
    { s with cart := newCart, cartCount := sumQuantities newCart,
             store := { s.store with cart := some (.json (encodeCart newCart)) } }

/-- App.js lines 122-126: empty the cart, zero the count, delete the
persisted `cart` key. -/
def clearCart (s : GState) : GState :=
  { s with cart := [], cartCount := 0,
           store := { s.store with cart := none } }

/-- App.js lines 128-130:
`cart.reduce((sum, item) => sum + (item.product.price * item.quantity), 0)`.
A pure function of the current cart: each term uses the product snapshot
stored in the line item, never a re-fetched price, and nothing is cached. -/
def getTotal (s : GState) : ℚ :=
  s.cart.foldl (fun sum it => sum + it.product.price * it.quantity) 0

/-- App.js lines 43-46: remove the persisted token, clear the user. -/
def logout (s : GState) : GState :=
  { s with user := none,
           store := { s.store with session_token := none } }

/-- The ways the `JSON.parse`-based hydration of App.js lines 70-77 can
crash instead of producing a cart. -/
inductive HydrateError : Type where
  | parseThrow : HydrateError
  | shapeError : HydrateError
  deriving DecidableEq

/-- App.js lines 70-77, the `CartProvider` hydration effect.  `getItem`
returning `null` or the empty string is falsy and skipped; otherwise
`JSON.parse(savedCart)` runs with no try/catch, so invalid JSON throws
(`parseThrow`), and a parsed value that is not an array of line items makes
the immediate `parsedCart.reduce(...)` / later field accesses misbehave
(`shapeError`); a well-shaped array becomes the cart and the count is
recomputed from it. -/
def hydrateCart (s : GState) : Except HydrateError GState :=
  match s.store.cart with
  | none => .ok s
  | some (.junk str) => if str = "" then .ok s else .error .parseThrow
  | some (.json v) =>
      match decodeCart v with
      | some parsedCart =>
          .ok { s with cart := parsedCart,
                       cartCount := sumQuantities parsedCart }
      | none => .error .shapeError

/-- The outcome of the asynchronous `axios.get(API + '/auth/profile')`
call: the promise resolves with a user profile, or rejects (network error,
non-2xx status such as a rejected credential, or a response the client
errors on). -/
inductive FetchOutcome : Type where
  | success : User → FetchOutcome
  | failure : String → FetchOutcome

/-- App.js lines 24-36, `fetchProfile`: on success set the user; on any
rejection remove the stored `session_token`; either way loading ends. -/
def fetchProfile (s : GState) (outcome : FetchOutcome) : GState :=
  match outcome with
  | .success u => { s with user := some u, loading := false }
  | .failure _ =>
      { s with store := { s.store with session_token := none },
               loading := false }

/-- App.js lines 15-22, the `AuthProvider` startup effect: with a stored
token, resolve it through `fetchProfile`; without one, just stop loading. -/
def authStartup (s : GState) (outcome : FetchOutcome) : GState :=
  match s.store.session_token with
  | some _ => fetchProfile s outcome
  | none => { s with loading := false }

/-- The five top-level screens the compositor can return (App.js
lines 795-810). -/
inductive Screen : Type where
  | home | products | cart | orders | profile
  deriving DecidableEq

/-- App.js lines 795-810: the `switch (currentView)` in `renderView`; a
sequential comparison against the five known view names, with `Home` as the
`default` case.  Exactly one screen is returned for any input. -/
def renderView (currentView : String) : Screen :=
  if currentView = "home" then .home
  else if currentView = "products" then .products
  else if currentView = "cart" then .cart
  else if currentView = "orders" then .orders
  else if currentView = "profile" then .profile
  else .home

/-- App.js lines 813-824: `window.navigateTo = (view) => setCurrentView(view)`.
The selection is stored as given, with no validation. -/
def navigateTo (s : GState) (view : String) : GState :=
  { s with currentView := view }

/-- The initial React state of `App`/`AuthProvider`/`CartProvider` before any
effect runs: no user, loading, empty cart, count `0`, view `home`, on top of
whatever the persistent store holds (App.js lines 12-13, 67-68, 793). -/
def initialState (store : KVStore) : GState :=
  { user := none, loading := true, cart := [], cartCount := 0,
    currentView := "home", store := store }

/-- One public cart mutation, for reasoning about call sequences. -/
inductive CartOp : Type where
  | add : Product → ℚ → CartOp
  | remove : String → CartOp
  | update : String → ℚ → CartOp
  | clear : CartOp

/-- Applies one cart mutation to the state. -/
def applyOp (s : GState) : CartOp → GState
  | .add p q => addToCart s p q
  | .remove pid => removeFromCart s pid
  | .update pid q => updateQuantity s pid q
  | .clear => clearCart s

/-- Applies a sequence of cart mutations in order. -/
def applyOps (s : GState) (ops : List CartOp) : GState :=
  ops.foldl applyOp s

/-- The cart-store states the client can actually be in: a fresh start with
no persisted cart, a restart that hydrates from the store a previous
reachable state left behind, and any public cart mutation applied to a
reachable state. -/
inductive Reachable : GState → Prop where
  | fresh (store : KVStore) : store.cart = none → Reachable (initialState store)
  | restart (s s' : GState) : Reachable s →
      hydrateCart (initialState s.store) = .ok s' → Reachable s'
  | step (s : GState) (op : CartOp) : Reachable s → Reachable (applyOp s op)

/-- The list of product identifiers of a cart's line items, in order. -/
def cartIds (c : List LineItem) : List String :=
  c.map fun it => it.product.id

/-- The two cart-store invariants of spec sections 3/4.1 and 8: the exposed
count mirrors the sum of quantities, and product identifiers are unique
across line items. -/
def CartInvariant (s : GState) : Prop :=
  s.cartCount = sumQuantities s.cart ∧ (cartIds s.cart).Nodup

/-- The persisted `cart` key mirrors the in-memory cart: it holds the JSON
serialization of the current cart, except right after `clearCart` or on a
fresh start, where the key is absent and the cart empty. -/
def StoreMirrors (s : GState) : Prop :=
  s.store.cart = some (.json (encodeCart s.cart)) ∨
    (s.store.cart = none ∧ s.cart = [])

/-- The full inductive invariant of the cart store. -/
def Inv (s : GState) : Prop :=
  CartInvariant s ∧ StoreMirrors s

/-- Every line item of the cart has a strictly positive quantity. -/
def AllPositive (c : List LineItem) : Prop :=
  ∀ it ∈ c, 0 < it.quantity

/-- Every `addToCart` call in the sequence passes a positive quantity (as
every call site in App.js does: `addToCart(product)` defaults to `1`). -/
def PositiveAdds (ops : List CartOp) : Prop :=
  ∀ op ∈ ops, ∀ p q, op = CartOp.add p q → 0 < q

/-- A store with both keys absent: the state of a first visit. -/
def emptyStore : KVStore :=
  { session_token := none, cart := none }

/-- Concrete sample product used to instantiate universally quantified
theorems. -/
def prodA : Product :=
  { id := "p1", name := "Widget", description := "A widget",
    price := 999 / 100, category := "misc", inventory := 3, images := [] }

/-- A second sample product with a different identifier. -/
def prodB : Product :=
  { id := "p2", name := "Gadget", description := "A gadget",
    price := 5, category := "misc", inventory := 7, images := ["u1"] }

/-- The same catalog entry as `prodA` after a backend price change: same
identifier, different price. -/
def prodA2 : Product :=
  { id := "p1", name := "Widget", description := "A widget",
    price := 123, category := "misc", inventory := 3, images := [] }

/-- A concrete reachable state: fresh start, then `addToCart(prodA, 2)`. -/
def exState : GState :=
  applyOp (initialState emptyStore) (.add prodA 2)

/-- A concrete sample user profile. -/
def userA : User :=
  { id := "u1", name := "Ada", email := "ada@example.com",
    picture := none, created_at := "2024-01-01" }

/-- The five view names the `switch` in `renderView` recognizes. -/
def knownViews : List String :=
  ["home", "products", "cart", "orders", "profile"]

theorem decodeStrList_encode (l : List String) :
    decodeStrList (l.map Jval.jstr) = some l := by
  induction l with
  | nil => rfl
  | cons a t ih => simp [decodeStrList, ih]

theorem decodeProduct_encode (p : Product) :
    decodeProduct (encodeProduct p) = some p := by
  simp [encodeProduct, decodeProduct, decodeStrList_encode]

theorem decodeItem_encode (it : LineItem) :
    decodeItem (encodeItem it) = some it := by
  simp [encodeItem, decodeItem, decodeProduct_encode]

theorem decodeCart_encode (c : List LineItem) :
    decodeCart (encodeCart c) = some c := by
  simp only [encodeCart, decodeCart]
  induction c with
  | nil => rfl
  | cons it t ih => simp [decodeItems, decodeItem_encode, ih]

theorem foldl_add_eq (f : LineItem → ℚ) (c : List LineItem) (a : ℚ) :
    c.foldl (fun sum it => sum + f it) a = a + (c.map f).sum := by
  induction c generalizing a with
  | nil => simp
  | cons x t ih => simp [ih, add_assoc]

theorem sumQuantities_eq_sum (c : List LineItem) :
    sumQuantities c = (c.map fun it => it.quantity).sum := by
  simpa [sumQuantities] using foldl_add_eq (fun it => it.quantity) c 0

theorem getTotal_eq_sum (s : GState) :
    getTotal s = (s.cart.map fun it => it.product.price * it.quantity).sum := by
  simpa [getTotal] using
    foldl_add_eq (fun it => it.product.price * it.quantity) s.cart 0

theorem cartIds_map (c : List LineItem) (f : LineItem → LineItem)
    (h : ∀ it, (f it).product.id = it.product.id) :
    cartIds (c.map f) = cartIds c := by
  unfold cartIds
  rw [List.map_map]
  exact List.map_congr_left fun it _ => h it

theorem not_mem_cartIds_of_any_eq_false (c : List LineItem) (pid : String)
    (h : (c.any fun it => it.product.id == pid) = false) :
    pid ∉ cartIds c := by
  simp only [List.any_eq_false, beq_iff_eq] at h
  simp only [cartIds, List.mem_map]
  rintro ⟨it, hmem, hid⟩
  exact h it hmem hid

theorem storeMirrors_applyOp (s : GState) (op : CartOp) :
    StoreMirrors (applyOp s op) := by
  cases op with
  | add p q => exact Or.inl rfl
  | remove pid => exact Or.inl rfl
  | update pid q =>
      by_cases hq : q ≤ 0
      · simp only [applyOp, updateQuantity, if_pos hq]
        exact Or.inl rfl
      · simp only [applyOp, updateQuantity, if_neg hq]
        exact Or.inl rfl
  | clear => exact Or.inr ⟨rfl, rfl⟩

theorem nodup_addItem (c : List LineItem) (p : Product) (q : ℚ)
    (h : (cartIds c).Nodup) : (cartIds (addItem c p q)).Nodup := by
  unfold addItem
  by_cases hex : (c.any fun it => it.product.id == p.id) = true
  · rw [if_pos hex, cartIds_map]
    · exact h
    · intro it
      dsimp only
      split <;> rfl
  · rw [if_neg hex]
    have hnotin : p.id ∉ cartIds c :=
      not_mem_cartIds_of_any_eq_false c p.id (Bool.not_eq_true _ ▸ hex)
    unfold cartIds at *
    rw [List.map_append, List.nodup_append]
    exact ⟨h, List.nodup_singleton _, by simpa using hnotin⟩

theorem nodup_removeItem (c : List LineItem) (pid : String)
    (h : (cartIds c).Nodup) : (cartIds (removeItem c pid)).Nodup :=
  List.Nodup.sublist (List.Sublist.map _ (List.filter_sublist _)) h

theorem nodup_setItemQuantity (c : List LineItem) (pid : String) (q : ℚ)
    (h : (cartIds c).Nodup) : (cartIds (setItemQuantity c pid q)).Nodup := by
  unfold setItemQuantity
  rw [cartIds_map]
  · exact h
  · intro it
    dsimp only
    split <;> rfl

theorem inv_applyOp (s : GState) (op : CartOp) (h : Inv s) :
    Inv (applyOp s op) := by
  obtain ⟨⟨-, hnodup⟩, -⟩ := h
  refine ⟨⟨?_, ?_⟩, storeMirrors_applyOp s op⟩ <;> cases op with
  | add p q => first
      | rfl
      | exact nodup_addItem s.cart p q hnodup
  | remove pid => first
      | rfl
      | exact nodup_removeItem s.cart pid hnodup
  | update pid q =>
      by_cases hq : q ≤ 0 <;>
        simp only [applyOp, updateQuantity, if_pos, if_neg, hq, if_true,
          if_false, removeFromCart] <;> first
        | rfl
        | exact nodup_removeItem s.cart pid hnodup
        | exact nodup_setItemQuantity s.cart pid q hnodup
  | clear => first
      | rfl
      | exact List.nodup_nil

theorem inv_hydrate (s s' : GState) (h : Inv s)
    (hh : hydrateCart (initialState s.store) = .ok s') :
    Inv s' ∧ s'.cart = s.cart ∧ s'.cartCount = s.cartCount := by
  obtain ⟨⟨hcount, hnodup⟩, hstore⟩ := h
  rcases hstore with hst | ⟨hst, hcart⟩
  · simp only [hydrateCart, initialState, hst, decodeCart_encode,
      Except.ok.injEq] at hh
    subst hh
    refine ⟨⟨⟨rfl, hnodup⟩, Or.inl hst⟩, rfl, hcount.symm⟩
  · simp only [hydrateCart, initialState, hst, Except.ok.injEq] at hh
    subst hh
    refine ⟨⟨⟨rfl, List.nodup_nil⟩, Or.inr ⟨hst, rfl⟩⟩, hcart.symm, ?_⟩
    rw [hcount, hcart]
    rfl

theorem allPositive_addItem (c : List LineItem) (p : Product) (q : ℚ)
    (hc : AllPositive c) (hq : 0 < q) : AllPositive (addItem c p q) := by
  unfold addItem
  by_cases hex : (c.any fun it => it.product.id == p.id) = true
  · rw [if_pos hex]
    intro it hmem
    obtain ⟨it0, hmem0, heq⟩ := List.mem_map.mp hmem
    subst heq
    by_cases hid : (it0.product.id == p.id) = true
    · simp only [hid, if_true]
      exact add_pos (hc it0 hmem0) hq
    · simp only [hid, if_false]
      exact hc it0 hmem0
  · rw [if_neg hex]
    intro it hmem
    rcases List.mem_append.mp hmem with hl | hr
    · exact hc it hl
    · rw [List.mem_singleton.mp hr]
      exact hq

theorem allPositive_removeItem (c : List LineItem) (pid : String)
    (hc : AllPositive c) : AllPositive (removeItem c pid) :=
  fun it hmem => hc it (List.mem_of_mem_filter hmem)

theorem allPositive_setItemQuantity (c : List LineItem) (pid : String) (q : ℚ)
    (hc : AllPositive c) (hq : 0 < q) :
    AllPositive (setItemQuantity c pid q) := by
  intro it hmem
  obtain ⟨it0, hmem0, heq⟩ := List.mem_map.mp hmem
  subst heq
  by_cases hid : (it0.product.id == pid) = true
  · simp only [hid, if_true]
    exact hq
  · simp only [hid, if_false]
    exact hc it0 hmem0

theorem allPositive_applyOp (s : GState) (op : CartOp)
    (hc : AllPositive s.cart) (hq : ∀ p q, op = CartOp.add p q → 0 < q) :
    AllPositive (applyOp s op).cart := by
  cases op with
  | add p q => exact allPositive_addItem s.cart p q hc (hq p q rfl)
  | remove pid => exact allPositive_removeItem s.cart pid hc
  | update pid q =>
      by_cases hle : q ≤ 0
      · simp only [applyOp, updateQuantity, if_pos hle]
        exact allPositive_removeItem s.cart pid hc
      · simp only [applyOp, updateQuantity, if_neg hle]
        exact allPositive_setItemQuantity s.cart pid q hc (lt_of_not_le hle)
  | clear => intro it hmem; cases hmem

theorem allPositive_applyOps (s : GState) (ops : List CartOp)
    (hc : AllPositive s.cart) (hops : PositiveAdds ops) :
    AllPositive (applyOps s ops).cart := by
  induction ops generalizing s with
  | nil => exact hc
  | cons op rest ih =>
      simp only [applyOps, List.foldl_cons]
      exact ih (applyOp s op)
        (allPositive_applyOp s op hc fun p q hop =>
          hops op (List.mem_cons_self op rest) p q hop)
        (fun o ho p q hop => hops o (List.mem_cons_of_mem op ho) p q hop)

theorem storeMirrors_applyOps (s : GState) (ops : List CartOp)
    (h : StoreMirrors s) : StoreMirrors (applyOps s ops) := by
  induction ops generalizing s with
  | nil => exact h
  | cons op rest ih =>
      simp only [applyOps, List.foldl_cons]
      exact ih (applyOp s op) (storeMirrors_applyOp s op)

theorem reachable_inv (s : GState) (h : Reachable s) : Inv s := by
  induction h with
  | fresh store hst => exact ⟨⟨rfl, List.nodup_nil⟩, Or.inr ⟨hst, rfl⟩⟩
  | restart s s' hr hh ih => exact (inv_hydrate s s' ih hh).1
  | step s op hr ih => exact inv_applyOp s op ih

/-- C1: for every state reachable by `addToCart`/`removeFromCart`/
`updateQuantity` calls from an empty start or from hydrating a previously
persisted cart (including right after hydration itself), the exposed
`cartCount` equals the sum of the line-item quantities, and no two line items
share a product identifier. -/
theorem c1_count_and_unique_ids (s : GState) (h : Reachable s) :
    s.cartCount = sumQuantities s.cart ∧ (cartIds s.cart).Nodup :=
  (reachable_inv s h).1

/-- Witness for C1 at the concrete reachable state `exState`. -/
theorem c1_witness :
    Reachable exState ∧
      (exState.cartCount = sumQuantities exState.cart ∧
        (cartIds exState.cart).Nodup) :=
  have hr : Reachable exState :=
    Reachable.step (initialState emptyStore) (.add prodA 2)
      (Reachable.fresh emptyStore rfl)
  ⟨hr, c1_count_and_unique_ids exState hr⟩

/-- C2: `addToCart` increments the quantity of the existing line item for
`product.id` in place (same length, same order, other items untouched), or
appends a new `{ product, quantity }` at the end; adding `p1` at price 9.99
with quantity 2 and then quantity 3 to an empty cart yields one line item of
quantity 5 and a total of 49.95. -/
theorem c2_addToCart_spec :
    (∀ (s : GState) (p : Product) (q : ℚ),
      (∃ it ∈ s.cart, it.product.id = p.id) →
      (addToCart s p q).cart.length = s.cart.length ∧
      ∀ i : ℕ, (addToCart s p q).cart[i]? =
        (s.cart[i]?).map fun it =>
          if it.product.id = p.id then
            { it with quantity := it.quantity + q }
          else it) ∧
    (∀ (s : GState) (p : Product) (q : ℚ),
      (¬ ∃ it ∈ s.cart, it.product.id = p.id) →
      (addToCart s p q).cart = s.cart ++ [{ product := p, quantity := q }]) ∧
    (∀ p : Product, p.id = "p1" → p.price = 999 / 100 →
      (addToCart (addToCart (initialState emptyStore) p 2) p 3).cart =
        [{ product := p, quantity := 5 }] ∧
      getTotal (addToCart (addToCart (initialState emptyStore) p 2) p 3) =
        4995 / 100) := by
  refine ⟨?_, ?_, ?_⟩
  · intro s p q hex
    have hany : (s.cart.any fun it => it.product.id == p.id) = true := by
      obtain ⟨it0, hmem, hid⟩ := hex
      simp only [List.any_eq_true, beq_iff_eq]
      exact ⟨it0, hmem, hid⟩
    have hcart : (addToCart s p q).cart = s.cart.map fun it =>
        if it.product.id = p.id then
          { it with quantity := it.quantity + q }
        else it := by
      show addItem s.cart p q = _
      unfold addItem
      rw [if_pos hany]
      apply List.map_congr_left
      intro it _
      by_cases hid : it.product.id = p.id
      · simp [hid]
      · simp [hid]
    exact ⟨by rw [hcart, List.length_map],
      fun i => by rw [hcart, List.getElem?_map]⟩
  · intro s p q hex
    have hany : (s.cart.any fun it => it.product.id == p.id) = false := by
      simp only [List.any_eq_false, beq_iff_eq]
      intro it hmem hid
      exact hex ⟨it, hmem, hid⟩
    show addItem s.cart p q = _
    unfold addItem
    rw [if_neg (by simp [hany])]
  · intro p h1 h2
    have step2 :
        (addToCart (addToCart (initialState emptyStore) p 2) p 3).cart =
          [{ product := p, quantity := 5 }] := by
      show addItem [{ product := p, quantity := 2 }] p 3 = _
      simp [addItem]
      norm_num
    refine ⟨step2, ?_⟩
    rw [getTotal_eq_sum, step2]
    simp [h2]
    norm_num

/-- Witness for C2's scenario clause at the concrete product `prodA`. -/
theorem c2_witness :
    (prodA.id = "p1" ∧ prodA.price = 999 / 100) ∧
    (addToCart (addToCart (initialState emptyStore) prodA 2) prodA 3).cart =
      [{ product := prodA, quantity := 5 }] ∧
    getTotal (addToCart (addToCart (initialState emptyStore) prodA 2) prodA 3) =
      4995 / 100 :=
  ⟨⟨rfl, rfl⟩, (c2_addToCart_spec.2.2 prodA rfl rfl).1,
    (c2_addToCart_spec.2.2 prodA rfl rfl).2⟩

/-- C3: `updateQuantity` with a quantity `<= 0` (zero and negatives alike)
returns exactly `removeFromCart`'s result; with a positive quantity it
overwrites the matching line item's quantity (not additively) and leaves
every other line item unchanged. -/
theorem c3_updateQuantity_spec :
    (∀ (s : GState) (pid : String) (q : ℚ), q ≤ 0 →
      updateQuantity s pid q = removeFromCart s pid) ∧
    (∀ (s : GState) (pid : String) (q : ℚ), 0 < q →
      (updateQuantity s pid q).cart.length = s.cart.length ∧
      ∀ i : ℕ, (updateQuantity s pid q).cart[i]? =
        (s.cart[i]?).map fun it =>
          if it.product.id = pid then { it with quantity := q } else it) := by
  refine ⟨?_, ?_⟩
  · intro s pid q hq
    unfold updateQuantity
    rw [if_pos hq]
  · intro s pid q hq
    have hcart : (updateQuantity s pid q).cart = s.cart.map fun it =>
        if it.product.id = pid then { it with quantity := q } else it := by
      unfold updateQuantity
      rw [if_neg (not_le.mpr hq)]
      show setItemQuantity s.cart pid q = _
      unfold setItemQuantity
      apply List.map_congr_left
      intro it _
      by_cases hid : it.product.id = pid
      · simp [hid]
      · simp [hid]
    exact ⟨by rw [hcart, List.length_map],
      fun i => by rw [hcart, List.getElem?_map]⟩

/-- Witness for C3 at the concrete state `exState`: quantity `-1` removes,
quantity `7` keeps the cart's length. -/
theorem c3_witness :
    ((-1 : ℚ) ≤ 0 ∧
      updateQuantity exState "p1" (-1) = removeFromCart exState "p1") ∧
    ((0 : ℚ) < 7 ∧
      (updateQuantity exState "p1" 7).cart.length = exState.cart.length) :=
  ⟨⟨by norm_num, c3_updateQuantity_spec.1 exState "p1" (-1) (by norm_num)⟩,
    ⟨by norm_num, (c3_updateQuantity_spec.2 exState "p1" 7 (by norm_num)).1⟩⟩

/-- C4: `getTotal` is the sum, over the current line items, of the stored
product-snapshot price times the quantity — a pure function of the cart,
computed fresh from it on every call.  In particular re-adding a product
through a catalog entry `p2` that carries the same identifier but a
different current price still charges the price snapshot `p` captured by the
first add: the backend's newer price is never consulted. -/
theorem c4_getTotal_snapshot :
    (∀ s : GState, getTotal s =
      (s.cart.map fun it => it.product.price * it.quantity).sum) ∧
    (∀ (s : GState) (p : Product) (q1 : ℚ) (p2 : Product) (q2 : ℚ),
      (¬ ∃ it ∈ s.cart, it.product.id = p.id) → p2.id = p.id →
      getTotal (addToCart (addToCart s p q1) p2 q2) =
        getTotal s + p.price * (q1 + q2)) := by
  refine ⟨getTotal_eq_sum, ?_⟩
  intro s p q1 p2 q2 hno hid
  have hany1 : (s.cart.any fun it => it.product.id == p.id) = false := by
    simp only [List.any_eq_false, beq_iff_eq]
    intro it hmem hidm
    exact hno ⟨it, hmem, hidm⟩
  have h1 : addItem s.cart p q1 =
      s.cart ++ [{ product := p, quantity := q1 }] := by
    unfold addItem
    rw [if_neg (by simp [hany1])]
  have hany2 : ((s.cart ++ ([{ product := p, quantity := q1 }] : List LineItem)).any
      fun it => it.product.id == p2.id) = true := by
    simp [hid]
  have h2 : addItem (s.cart ++ [{ product := p, quantity := q1 }]) p2 q2 =
      s.cart ++ [{ product := p, quantity := q1 + q2 }] := by
    unfold addItem
    rw [if_pos hany2, List.map_append]
    congr 1
    · calc
        s.cart.map (fun it =>
            if it.product.id == p2.id then
              { it with quantity := it.quantity + q2 }
            else it) = s.cart.map id :=
          List.map_congr_left fun it hmem => by
            have hne : ¬ it.product.id = p2.id := by
              rw [hid]
              simp only [List.any_eq_false, beq_iff_eq] at hany1
              exact hany1 it hmem
            simp [hne]
        _ = s.cart := List.map_id _
    · simp [hid]
  have hcart : (addToCart (addToCart s p q1) p2 q2).cart =
      s.cart ++ [{ product := p, quantity := q1 + q2 }] := by
    show addItem (addItem s.cart p q1) p2 q2 = _
    rw [h1, h2]
  rw [getTotal_eq_sum, hcart, List.map_append, List.sum_append,
    getTotal_eq_sum]
  simp

/-- Witness for C4's snapshot clause: `prodA2` shares `prodA`'s identifier
but carries price 123; the total still uses `prodA`'s price 9.99. -/
theorem c4_witness :
    (¬ ∃ it ∈ (initialState emptyStore).cart, it.product.id = prodA.id) ∧
    prodA2.id = prodA.id ∧
    getTotal (addToCart (addToCart (initialState emptyStore) prodA 2)
        prodA2 3) =
      getTotal (initialState emptyStore) + prodA.price * (2 + 3) :=
  ⟨by simp [initialState], rfl,
    c4_getTotal_snapshot.2 (initialState emptyStore) prodA 2 prodA2 3
      (by simp [initialState]) rfl⟩

/-- Counterexample to C5 as stated: `addToCart` performs no quantity guard,
so calling it with the integer quantity `0` on an empty cart stores (and
persists) a line item whose quantity is not strictly positive. -/
theorem c5_counterexample :
    ¬ AllPositive
      (applyOps (initialState emptyStore) [CartOp.add prodA 0]).cart := by
  intro h
  have h0 := h { product := prodA, quantity := 0 }
    (show _ ∈ ([{ product := prodA, quantity := 0 }] : List LineItem) from
      List.mem_singleton.mpr rfl)
  norm_num at h0

/-- C5 as amended: for sequences of public cart operations in which every
`addToCart` call passes a positive quantity (every call site in App.js does,
via the default of 1), starting from an empty cart, every line item in
memory is strictly positive and the persisted cart key is absent or holds
the serialization of that same all-positive cart. -/
theorem c5_positive_quantities (ops : List CartOp) (h : PositiveAdds ops) :
    AllPositive (applyOps (initialState emptyStore) ops).cart ∧
    ((applyOps (initialState emptyStore) ops).store.cart = none ∨
      (applyOps (initialState emptyStore) ops).store.cart =
        some (Stored.json
          (encodeCart (applyOps (initialState emptyStore) ops).cart))) := by
  constructor
  · exact allPositive_applyOps (initialState emptyStore) ops
      (fun it hmem => absurd hmem (List.not_mem_nil it)) h
  · rcases storeMirrors_applyOps (initialState emptyStore) ops
        (Or.inr ⟨rfl, rfl⟩) with hm | ⟨hm, -⟩
    · exact Or.inr hm
    · exact Or.inl hm

/-- Witness for C5's amended statement on a concrete operation sequence. -/
theorem c5_witness :
    PositiveAdds
      [CartOp.add prodA 2, CartOp.update "p1" 5, CartOp.add prodB 1] ∧
    AllPositive (applyOps (initialState emptyStore)
      [CartOp.add prodA 2, CartOp.update "p1" 5, CartOp.add prodB 1]).cart :=
  have hp : PositiveAdds
      [CartOp.add prodA 2, CartOp.update "p1" 5, CartOp.add prodB 1] := by
    intro op hop p q heq
    subst heq
    simp only [List.mem_cons, List.not_mem_nil, or_false,
      CartOp.add.injEq, reduceCtorEq, false_or] at hop
    rcases hop with ⟨-, hq⟩ | ⟨-, hq⟩ <;> subst hq <;> norm_num
  ⟨hp, (c5_positive_quantities
    [CartOp.add prodA 2, CartOp.update "p1" 5, CartOp.add prodB 1] hp).1⟩

/-- C6: any reachable cart state round-trips through persistence — hydrating
a fresh provider from the store it left behind reproduces the identical
ordered line-item list, and the recomputed count equals the original. -/
theorem c6_persistence_roundtrip (s : GState) (h : Reachable s) :
    ∃ s', hydrateCart (initialState s.store) = .ok s' ∧
      s'.cart = s.cart ∧ s'.cartCount = s.cartCount := by
  obtain ⟨⟨hcount, -⟩, hstore⟩ := reachable_inv s h
  rcases hstore with hst | ⟨hst, hcart⟩
  · refine ⟨({ initialState s.store with cart := s.cart, cartCount := sumQuantities s.cart } : GState), ?_, rfl, hcount.symm⟩
    simp [hydrateCart, initialState, hst, decodeCart_encode]
  · refine ⟨initialState s.store, ?_, ?_, ?_⟩
    · simp [hydrateCart, initialState, hst]
    · show ([] : List LineItem) = s.cart
      exact hcart.symm
    · show (0 : ℚ) = s.cartCount
      rw [hcount, hcart]
      rfl

/-- Witness for C6 at the concrete reachable state `exState`. -/
theorem c6_witness :
    Reachable exState ∧
      ∃ s', hydrateCart (initialState exState.store) = .ok s' ∧
        s'.cart = exState.cart ∧ s'.cartCount = exState.cartCount :=
  have hr : Reachable exState :=
    Reachable.step (initialState emptyStore) (.add prodA 2)
      (Reachable.fresh emptyStore rfl)
  ⟨hr, c6_persistence_roundtrip exState hr⟩

/-- C7: hydration is not total.  With the string `"not json"` stored under
the `cart` key, `JSON.parse(savedCart)` (App.js line 73, no try/catch) throws
a `SyntaxError` instead of starting from the empty cart; a parsed non-array
value such as JSON `null` likewise crashes the immediate
`parsedCart.reduce(...)`.  This evaluates the code at both failing inputs. -/
theorem c7_malformed_hydration_crashes :
    hydrateCart (initialState
        { session_token := none, cart := some (Stored.junk "not json") }) =
      .error .parseThrow ∧
    hydrateCart (initialState
        { session_token := none, cart := some (Stored.json Jval.jnull) }) =
      .error .shapeError := by
  constructor <;> rfl

/-- C8: a stored session token whose profile fetch fails (the promise
rejects, for any reason) leaves the manager unauthenticated with the stored
token removed. -/
theorem c8_failed_profile_fetch (store : KVStore) (tok err : String)
    (h : store.session_token = some tok) :
    (authStartup (initialState store) (.failure err)).user = none ∧
    (authStartup (initialState store) (.failure err)).store.session_token =
      none := by
  simp [authStartup, initialState, fetchProfile, h]

/-- Witness for C8 with a concrete stored token and failure. -/
theorem c8_witness :
    ({ session_token := some "tok", cart := none } : KVStore).session_token =
        some "tok" ∧
      ((authStartup (initialState { session_token := some "tok", cart := none })
          (.failure "network down")).user = none ∧
        (authStartup (initialState { session_token := some "tok", cart := none })
          (.failure "network down")).store.session_token = none) :=
  ⟨rfl, c8_failed_profile_fetch
    { session_token := some "tok", cart := none } "tok" "network down" rfl⟩

/-- C9: the compositor returns exactly one screen for any selection — the
matching one for the five known view names, and `home` for everything else;
in particular `navigateTo("orders")` then `navigateTo("bogus")` renders
`home`. -/
theorem c9_router_fallback :
    (renderView "home" = Screen.home ∧ renderView "products" = Screen.products ∧
      renderView "cart" = Screen.cart ∧ renderView "orders" = Screen.orders ∧
      renderView "profile" = Screen.profile) ∧
    (∀ v, v ∉ knownViews → renderView v = Screen.home) ∧
    (∀ s : GState,
      renderView (navigateTo (navigateTo s "orders") "bogus").currentView =
        Screen.home) := by
  refine ⟨⟨rfl, rfl, rfl, rfl, rfl⟩, ?_, fun s => rfl⟩
  intro v hv
  simp only [knownViews, List.mem_cons, List.not_mem_nil, or_false,
    not_or] at hv
  obtain ⟨h1, h2, h3, h4, h5⟩ := hv
  simp [renderView, h1, h2, h3, h4, h5]

/-- Witness for C9's fallback clause at the unrecognized view `"bogus"`. -/
theorem c9_witness :
    "bogus" ∉ knownViews ∧ renderView "bogus" = Screen.home :=
  ⟨by decide, c9_router_fallback.2.1 "bogus" (by decide)⟩

/-- C10: `logout` only clears the user and the persisted session token; the
in-memory cart, the exposed count and the persisted cart key are untouched. -/
theorem c10_logout_frame (s : GState) :
    (logout s).cart = s.cart ∧ (logout s).cartCount = s.cartCount ∧
    (logout s).store.cart = s.store.cart ∧ (logout s).user = none ∧
    (logout s).store.session_token = none :=
  ⟨rfl, rfl, rfl, rfl, rfl⟩

end Shop
